import Mathlib

/-
Verification of the overlap-accounting core of the subsapi repository
(internal/service: CalculateSubscriptionMetrics and AddOverlapMonths,
internal/utils: MaxTime and MinTime, internal/models: Subscription).

Go's time.Time is modelled as a calendar instant with month granularity
made explicit: a month index `ym` (year * 12 + (month - 1), so January of
year y has index 12 * y), a day-of-month `day`, and a sub-day component
`tod` (the time of day, an abstract tick count).  Chronological order is
lexicographic on (ym, day, tod), which agrees with Go's Before/After/Equal
on instants.  Only the fields that the core reads are modelled.
-/

/-- Model of Go time.Time: month index, day of month (1-based), time of day. -/
structure Date where
  ym : Int
  day : Nat
  tod : Nat
deriving DecidableEq, Repr

/-- Go t.Before(u): chronological strict order, lexicographic on (ym, day, tod). -/
def Date.before (a b : Date) : Bool :=
  decide (a.ym < b.ym ∨ (a.ym = b.ym ∧ (a.day < b.day ∨ (a.day = b.day ∧ a.tod < b.tod))))

/-- Go t.After(u). -/
def Date.after (a b : Date) : Bool :=
  Date.before b a

/-- Go's zero time.Time: January 1, year 1, 00:00:00 (month index 12 * 1). -/
def Date.zeroDate : Date := ⟨12, 1, 0⟩

/-- Go t.IsZero(). -/
def Date.isZero (a : Date) : Bool :=
  a = Date.zeroDate

/-- Leap year test of the proleptic Gregorian calendar used by Go's time package. -/
def isLeapYear (y : Int) : Bool :=
  (y.emod 4 = 0 && ¬ y.emod 100 = 0) || y.emod 400 = 0

/-- Number of days of the month with month index ym (ym.ediv 12 is the year,
ym.emod 12 the month of the year with 0 = January). -/
def daysInMonth (ym : Int) : Nat :=
  let m := ym.emod 12
  if m = 1 then (if isLeapYear (ym.ediv 12) then 29 else 28)
  else if m = 3 ∨ m = 5 ∨ m = 8 ∨ m = 10 then 30 else 31

/-- Go t.AddDate(0, 0, 1) on a calendar-valid instant (day ≤ daysInMonth):
the next day, rolling over to day 1 of the next month at the month boundary. -/
def Date.addOneDay (a : Date) : Date :=
  if a.day + 1 ≤ daysInMonth a.ym then ⟨a.ym, a.day + 1, a.tod⟩
  else ⟨a.ym + 1, 1, a.tod⟩

/-- internal/utils MaxTime: returns the later of two time values. -/
def MaxTime (a b : Date) : Date :=
  if a.after b then a else b

/-- internal/utils MinTime: returns the earlier of two time values. -/
def MinTime (a b : Date) : Date :=
  if a.before b then a else b

/-- internal/models Subscription, restricted to the fields the metrics core
reads: Price (Go int), StartDate, and the optional EndDate (Go *time.Time,
where a nil pointer is `none`). -/
structure Subscription where
  Price : Int
  StartDate : Date
  EndDate : Option Date
deriving DecidableEq, Repr

/-- Month key of the month with index ym, as the pair (Year(), Month()) that
the loop prints with fmt.Sprintf "%d-%02d".  The printed strings are in
bijection with these pairs (the month part always occupies the final two
digits), so the pair is a faithful model of the string key. -/
def monthKey (ym : Int) : Int × Int :=
  (ym.ediv 12, ym.emod 12 + 1)

/-- Loop body of AddOverlapMonths: starting at month index `current`, run for
`n` further iterations (n is the iteration count of the Go loop condition
!current.After(endMonth), namely (endMonth - current + 1).toNat), inserting
each month key not yet present and counting the newly inserted ones. -/
def addMonthsGo (uniqueMonths : Finset (Int × Int)) (added : Nat) (current : Int) :
    Nat → Finset (Int × Int) × Nat
  | 0 => (uniqueMonths, added)
  | Nat.succ n =>
      if monthKey current ∈ uniqueMonths then
        addMonthsGo uniqueMonths added (current + 1) n
      else
        addMonthsGo (insert (monthKey current) uniqueMonths) (added + 1) (current + 1) n

/-- internal/service AddOverlapMonths: truncates both endpoints to the first
day of their month (time.Date(Year(), Month(), 1, 0, 0, 0, 0, loc)), walks
month by month while !current.After(endMonth) — i.e. over every month index
from start.ym to end.ym inclusive — and records each month in the set,
returning the updated set together with the count of newly added months. -/
def AddOverlapMonths (uniqueMonths : Finset (Int × Int)) (start end_ : Date) :
    Finset (Int × Int) × Nat :=
  addMonthsGo uniqueMonths 0 start.ym (end_.ym + 1 - start.ym).toNat

/-- Interval normalization performed at the top of the loop body of
CalculateSubscriptionMetrics: effectiveStart = MaxTime(StartDate, periodStart);
effectiveEnd = periodEnd when EndDate is nil or the zero time, otherwise
MinTime(EndDate, periodEnd). -/
def effectiveInterval (periodStart periodEnd : Date) (sub : Subscription) : Date × Date :=
  (MaxTime sub.StartDate periodStart,
    match sub.EndDate with
    | none => periodEnd
    | some e => if e.isZero then periodEnd else MinTime e periodEnd)

/-- Overlap guard of CalculateSubscriptionMetrics: the subscription is skipped
when effectiveStart.After(effectiveEnd) or effectiveStart.Equal(effectiveEnd
.AddDate(0, 0, 1)). -/
def noOverlap (effectiveStart effectiveEnd : Date) : Bool :=
  effectiveStart.after effectiveEnd || effectiveStart == effectiveEnd.addOneDay

/-- Body of the subscription loop of CalculateSubscriptionMetrics, acting on
the loop state (unitPrice, totalCost, uniqueMonths). -/
def calcStep (periodStart periodEnd : Date)
    (st : Int × Int × Finset (Int × Int)) (sub : Subscription) :
    Int × Int × Finset (Int × Int) :=
  let unitPrice := if st.1 = 0 then sub.Price else st.1
  let eff := effectiveInterval periodStart periodEnd sub
  if noOverlap eff.1 eff.2 then
    (unitPrice, st.2.1, st.2.2)
  else
    let r := AddOverlapMonths st.2.2 eff.1 eff.2
    let totalCost := if r.2 > 0 then st.2.1 + sub.Price * (r.2 : Int) else st.2.1
    (unitPrice, totalCost, r.1)

/-- internal/service CalculateSubscriptionMetrics: folds the loop body over
the subscription list starting from unitPrice = 0, totalCost = 0 and a fresh
empty month set, and returns (unitPrice, totalCost, len(uniqueMonths)). -/
def CalculateSubscriptionMetrics (subscriptions : List Subscription)
    (periodStart periodEnd : Date) : Int × Int × Nat :=
  let st := subscriptions.foldl (calcStep periodStart periodEnd)
    (0, 0, (∅ : Finset (Int × Int)))
  (st.1, st.2.1, st.2.2.card)

/-- January of year 2024 has month index 24288; helper to write test dates. -/
def mkMonth (y : Int) (m : Int) : Date :=
  ⟨12 * y + (m - 1), 1, 0⟩

/-- Spec-side reading of the claims: the set of month indices covered by the
effective interval of a subscription (empty when the interval is empty,
i.e. when its end is chronologically before its start). -/
def coveredMonths (periodStart periodEnd : Date) (sub : Subscription) : Finset Int :=
  let eff := effectiveInterval periodStart periodEnd sub
  if eff.2.before eff.1 then ∅ else Finset.Icc eff.1.ym eff.2.ym

/-- Spec-side reading of the claims: the set of month indices covered by the
effective interval of at least one subscription of the list. -/
def coveredUnion (periodStart periodEnd : Date) : List Subscription → Finset Int
  | [] => ∅
  | s :: rest => coveredMonths periodStart periodEnd s ∪ coveredUnion periodStart periodEnd rest

/-- Spec-side reading of the cost-attribution contract: each subscription, in
input order, pays its own price for exactly the months of its effective
interval not already covered by an earlier subscription. -/
def costSpec (periodStart periodEnd : Date) (covered : Finset Int) :
    List Subscription → Int
  | [] => 0
  | s :: rest =>
      s.Price * (((coveredMonths periodStart periodEnd s) \ covered).card : Int)
        + costSpec periodStart periodEnd (covered ∪ coveredMonths periodStart periodEnd s) rest

/-- Spec-side reading of the amended unit-price rule: the price of the first
subscription of the list with nonzero price, and 0 when there is none. -/
def firstNonzeroPrice : List Subscription → Int
  | [] => 0
  | s :: rest => if s.Price = 0 then firstNonzeroPrice rest else s.Price

/-- Unit-price component of the loop body: set once, to the first nonzero price. -/
def uStep (u : Int) (sub : Subscription) : Int :=
  if u = 0 then sub.Price else u

/-- Cost-and-months component of the loop body. -/
def tmStep (periodStart periodEnd : Date)
    (tm : Int × Finset (Int × Int)) (sub : Subscription) : Int × Finset (Int × Int) :=
  let eff := effectiveInterval periodStart periodEnd sub
  if noOverlap eff.1 eff.2 then tm
  else
    let r := AddOverlapMonths tm.2 eff.1 eff.2
    (if r.2 > 0 then tm.1 + sub.Price * (r.2 : Int) else tm.1, r.1)

theorem addOneDay_before (a : Date) : a.before a.addOneDay = true := by
  unfold Date.addOneDay
  split <;> simp [Date.before]

theorem noOverlap_iff (es ee : Date) : noOverlap es ee = true ↔ ee.before es = true := by
  unfold noOverlap Date.after
  constructor
  · intro h
    rcases Bool.or_eq_true_iff.mp h with h | h
    · exact h
    · have hlt := addOneDay_before ee
      rw [← beq_iff_eq.mp h] at hlt
      exact hlt
  · intro h
    exact Bool.or_eq_true_iff.mpr (Or.inl h)

theorem monthKey_injective : Function.Injective monthKey := by
  intro a b h
  have h1 : Int.ediv a 12 = Int.ediv b 12 := congrArg Prod.fst h
  have h2 : Int.emod a 12 + 1 = Int.emod b 12 + 1 := congrArg Prod.snd h
  have ha : 12 * Int.ediv a 12 + Int.emod a 12 = a := Int.ediv_add_emod a 12
  have hb : 12 * Int.ediv b 12 + Int.emod b 12 = b := Int.ediv_add_emod b 12
  omega

/-- Month keys produced by n iterations of the month loop starting at month
index c. -/
def keysRange (c : Int) (n : Nat) : Finset (Int × Int) :=
  (Finset.range n).image (fun i : Nat => monthKey (c + (i : Int)))

theorem keysRange_zero (c : Int) : keysRange c 0 = ∅ := by
  simp [keysRange]

theorem keysRange_succ (c : Int) (n : Nat) :
    keysRange c (n + 1) = insert (monthKey c) (keysRange (c + 1) n) := by
  ext k
  simp only [keysRange, Finset.mem_image, Finset.mem_range, Finset.mem_insert]
  constructor
  · rintro ⟨i, hi, rfl⟩
    rcases Nat.eq_zero_or_pos i with h0 | h0
    · subst h0
      exact Or.inl (by norm_num)
    · refine Or.inr ⟨i - 1, by omega, ?_⟩
      have : c + 1 + ((i - 1 : Nat) : Int) = c + (i : Int) := by omega
      rw [this]
  · rintro (rfl | ⟨i, hi, rfl⟩)
    · exact ⟨0, Nat.succ_pos n, by norm_num⟩
    · refine ⟨i + 1, by omega, ?_⟩
      have : c + ((i + 1 : Nat) : Int) = c + 1 + (i : Int) := by push_cast; ring
      rw [this]

theorem keysRange_eq_Icc (s e : Int) :
    keysRange s (e + 1 - s).toNat = (Finset.Icc s e).image monthKey := by
  ext k
  simp only [keysRange, Finset.mem_image, Finset.mem_range, Finset.mem_Icc]
  constructor
  · rintro ⟨i, hi, rfl⟩
    exact ⟨s + (i : Int), by omega, rfl⟩
  · rintro ⟨j, hj, rfl⟩
    refine ⟨(j - s).toNat, by omega, ?_⟩
    have : s + (((j - s).toNat : Nat) : Int) = j := by omega
    rw [this]

theorem addMonthsGo_set (n : Nat) :
    ∀ (m : Finset (Int × Int)) (a : Nat) (c : Int),
      (addMonthsGo m a c n).1 = m ∪ keysRange c n := by
  induction n with
  | zero => intro m a c; simp [addMonthsGo, keysRange_zero]
  | succ n ih =>
      intro m a c
      rw [keysRange_succ]
      unfold addMonthsGo
      by_cases hk : monthKey c ∈ m
      · rw [if_pos hk, ih]
        rw [Finset.union_insert, Finset.insert_eq_self.mpr (Finset.mem_union_left _ hk)]
      · rw [if_neg hk, ih]
        rw [Finset.insert_union, Finset.union_insert]

theorem addMonthsGo_count (n : Nat) :
    ∀ (m : Finset (Int × Int)) (a : Nat) (c : Int),
      (addMonthsGo m a c n).2 + m.card = a + (m ∪ keysRange c n).card := by
  induction n with
  | zero => intro m a c; simp [addMonthsGo, keysRange_zero, Nat.add_comm]
  | succ n ih =>
      intro m a c
      rw [keysRange_succ]
      unfold addMonthsGo
      by_cases hk : monthKey c ∈ m
      · rw [if_pos hk, ih]
        rw [Finset.union_insert, Finset.insert_eq_self.mpr (Finset.mem_union_left _ hk)]
      · rw [if_neg hk]
        have h1 := ih (insert (monthKey c) m) (a + 1) (c + 1)
        have h2 : insert (monthKey c) m ∪ keysRange (c + 1) n
            = m ∪ insert (monthKey c) (keysRange (c + 1) n) := by
          rw [Finset.insert_union, Finset.union_insert]
        rw [h2] at h1
        have h3 : (insert (monthKey c) m).card = m.card + 1 :=
          Finset.card_insert_of_not_mem hk
        omega

theorem calcStep_decomp (periodStart periodEnd : Date)
    (u t : Int) (m : Finset (Int × Int)) (sub : Subscription) :
    calcStep periodStart periodEnd (u, t, m) sub
      = (uStep u sub, tmStep periodStart periodEnd (t, m) sub) := by
  simp only [calcStep, uStep, tmStep]
  split <;> rfl

theorem foldl_decomp (periodStart periodEnd : Date) :
    ∀ (l : List Subscription) (u t : Int) (m : Finset (Int × Int)),
      List.foldl (calcStep periodStart periodEnd) (u, t, m) l
        = (List.foldl uStep u l, List.foldl (tmStep periodStart periodEnd) (t, m) l) := by
  intro l
  induction l with
  | nil => intro u t m; rfl
  | cons s rest ih =>
      intro u t m
      rw [List.foldl_cons, List.foldl_cons, List.foldl_cons, calcStep_decomp]
      obtain ⟨t2, m2⟩ := tmStep periodStart periodEnd (t, m) s
      exact ih (uStep u s) t2 m2

theorem coveredMonths_of_noOverlap (periodStart periodEnd : Date) (s : Subscription)
    (h : noOverlap (effectiveInterval periodStart periodEnd s).1
      (effectiveInterval periodStart periodEnd s).2 = true) :
    coveredMonths periodStart periodEnd s = ∅ := by
  simp only [coveredMonths]
  rw [if_pos ((noOverlap_iff _ _).mp h)]

theorem coveredMonths_of_overlap (periodStart periodEnd : Date) (s : Subscription)
    (h : ¬ noOverlap (effectiveInterval periodStart periodEnd s).1
      (effectiveInterval periodStart periodEnd s).2 = true) :
    coveredMonths periodStart periodEnd s
      = Finset.Icc (effectiveInterval periodStart periodEnd s).1.ym
          (effectiveInterval periodStart periodEnd s).2.ym := by
  simp only [coveredMonths]
  rw [if_neg (fun hbt => h ((noOverlap_iff _ _).mpr hbt))]

theorem AddOverlapMonths_set (m : Finset (Int × Int)) (es ee : Date) :
    (AddOverlapMonths m es ee).1 = m ∪ (Finset.Icc es.ym ee.ym).image monthKey := by
  simp only [AddOverlapMonths]
  rw [addMonthsGo_set, keysRange_eq_Icc]

theorem AddOverlapMonths_count (covered : Finset Int) (es ee : Date) :
    (AddOverlapMonths (covered.image monthKey) es ee).2
      = ((Finset.Icc es.ym ee.ym) \ covered).card := by
  have h := addMonthsGo_count (ee.ym + 1 - es.ym).toNat (covered.image monthKey) 0 es.ym
  rw [keysRange_eq_Icc, ← Finset.image_union] at h
  rw [Finset.card_image_of_injective _ monthKey_injective,
    Finset.card_image_of_injective _ monthKey_injective] at h
  have h2 : ((Finset.Icc es.ym ee.ym) \ covered).card + covered.card
      = ((Finset.Icc es.ym ee.ym) ∪ covered).card :=
    Finset.card_sdiff_add_card _ _
  rw [Finset.union_comm] at h2
  simp only [AddOverlapMonths]
  omega

theorem tmFold_months (periodStart periodEnd : Date) :
    ∀ (l : List Subscription) (t : Int) (m : Finset (Int × Int)),
      (List.foldl (tmStep periodStart periodEnd) (t, m) l).2
        = m ∪ (coveredUnion periodStart periodEnd l).image monthKey := by
  intro l
  induction l with
  | nil => intro t m; simp [coveredUnion]
  | cons s rest ih =>
      intro t m
      rw [List.foldl_cons]
      simp only [tmStep]
      split
      next h =>
        rw [ih, coveredUnion, coveredMonths_of_noOverlap periodStart periodEnd s h,
          Finset.empty_union]
      next h =>
        rw [ih, coveredUnion, coveredMonths_of_overlap periodStart periodEnd s h]
        rw [AddOverlapMonths_set, Finset.image_union, Finset.union_assoc]

theorem tmFold_cost (periodStart periodEnd : Date) :
    ∀ (l : List Subscription) (t : Int) (covered : Finset Int),
      (List.foldl (tmStep periodStart periodEnd) (t, covered.image monthKey) l).1
        = t + costSpec periodStart periodEnd covered l := by
  intro l
  induction l with
  | nil => intro t covered; simp [costSpec]
  | cons s rest ih =>
      intro t covered
      rw [List.foldl_cons]
      simp only [tmStep, costSpec]
      split
      next h =>
        rw [ih, coveredMonths_of_noOverlap periodStart periodEnd s h]
        simp
      next h =>
        rw [coveredMonths_of_overlap periodStart periodEnd s h]
        have hset : (AddOverlapMonths (covered.image monthKey)
            (effectiveInterval periodStart periodEnd s).1
            (effectiveInterval periodStart periodEnd s).2).1
            = (covered ∪ Finset.Icc (effectiveInterval periodStart periodEnd s).1.ym
                (effectiveInterval periodStart periodEnd s).2.ym).image monthKey := by
          rw [AddOverlapMonths_set, Finset.image_union]
        have hcnt := AddOverlapMonths_count covered
          (effectiveInterval periodStart periodEnd s).1
          (effectiveInterval periodStart periodEnd s).2
        rw [hcnt, hset, ih]
        rcases Nat.eq_zero_or_pos ((Finset.Icc (effectiveInterval periodStart periodEnd s).1.ym
            (effectiveInterval periodStart periodEnd s).2.ym \ covered).card) with h0 | h0
        · rw [h0]
          simp [add_assoc]
        · rw [if_pos h0, add_assoc]

theorem uFold_eq : ∀ (l : List Subscription) (u : Int),
    List.foldl uStep u l = if u = 0 then firstNonzeroPrice l else u := by
  intro l
  induction l with
  | nil =>
      intro u
      simp only [List.foldl_nil, firstNonzeroPrice]
      split
      next h => rw [h]
      next h => rfl
  | cons s rest ih =>
      intro u
      rw [List.foldl_cons, ih]
      simp only [uStep, firstNonzeroPrice]
      by_cases hu : u = 0 <;> by_cases hp : s.Price = 0 <;> simp [hu, hp]

theorem before_eq_true_iff (a b : Date) : a.before b = true
    ↔ (a.ym < b.ym ∨ (a.ym = b.ym ∧ (a.day < b.day ∨ (a.day = b.day ∧ a.tod < b.tod)))) := by
  simp [Date.before]

theorem before_eq_false_iff (a b : Date) : a.before b = false
    ↔ ¬(a.ym < b.ym ∨ (a.ym = b.ym ∧ (a.day < b.day ∨ (a.day = b.day ∧ a.tod < b.tod)))) := by
  simp [Date.before]

theorem before_irrefl (a : Date) : a.before a = false :=
  (before_eq_false_iff a a).mpr (by omega)

theorem before_asymm {a b : Date} (h : a.before b = true) : b.before a = false := by
  have h1 := (before_eq_true_iff a b).mp h
  exact (before_eq_false_iff b a).mpr (by omega)

theorem before_chain {x b c y : Date} (h1 : b.before x = false) (h2 : b.before c = true)
    (h3 : y.before c = false) : x.before y = true := by
  have h4 := (before_eq_false_iff b x).mp h1
  have h5 := (before_eq_true_iff b c).mp h2
  have h6 := (before_eq_false_iff y c).mp h3
  exact (before_eq_true_iff x y).mpr (by omega)

theorem MinTime_cases (a b : Date) : MinTime a b = a ∨ MinTime a b = b := by
  unfold MinTime
  split
  · exact Or.inl rfl
  · exact Or.inr rfl

theorem MaxTime_cases (a b : Date) : MaxTime a b = a ∨ MaxTime a b = b := by
  unfold MaxTime
  split
  · exact Or.inl rfl
  · exact Or.inr rfl

theorem MinTime_le_left (a b : Date) : a.before (MinTime a b) = false := by
  unfold MinTime
  by_cases hb : a.before b = true
  · rw [if_pos hb]
    exact before_irrefl a
  · rw [if_neg hb]
    simpa using hb

theorem MinTime_le_right (a b : Date) : b.before (MinTime a b) = false := by
  unfold MinTime
  by_cases hb : a.before b = true
  · rw [if_pos hb]
    exact before_asymm hb
  · rw [if_neg hb]
    exact before_irrefl b

theorem MaxTime_ge_left (a b : Date) : (MaxTime a b).before a = false := by
  unfold MaxTime Date.after
  by_cases hb : b.before a = true
  · rw [if_pos hb]
    exact before_irrefl a
  · rw [if_neg hb]
    simpa using hb

theorem MaxTime_ge_right (a b : Date) : (MaxTime a b).before b = false := by
  unfold MaxTime Date.after
  by_cases hb : b.before a = true
  · rw [if_pos hb]
    exact before_asymm hb
  · rw [if_neg hb]
    exact before_irrefl b

theorem eff_fst_eq (periodStart periodEnd : Date) (sub : Subscription) :
    (effectiveInterval periodStart periodEnd sub).1 = MaxTime sub.StartDate periodStart := rfl

theorem eff_fst_ge_st (periodStart periodEnd : Date) (sub : Subscription) :
    (effectiveInterval periodStart periodEnd sub).1.before sub.StartDate = false :=
  MaxTime_ge_left sub.StartDate periodStart

theorem eff_fst_ge_ps (periodStart periodEnd : Date) (sub : Subscription) :
    (effectiveInterval periodStart periodEnd sub).1.before periodStart = false :=
  MaxTime_ge_right sub.StartDate periodStart

theorem eff_snd_of_some (periodStart periodEnd : Date) (sub : Subscription) (e : Date)
    (hE : sub.EndDate = some e) (hz : e.isZero = false) :
    (effectiveInterval periodStart periodEnd sub).2 = MinTime e periodEnd := by
  simp [effectiveInterval, hE, hz]

theorem eff_snd_of_none (periodStart periodEnd : Date) (sub : Subscription)
    (hE : sub.EndDate = none) :
    (effectiveInterval periodStart periodEnd sub).2 = periodEnd := by
  simp [effectiveInterval, hE]

theorem eff_snd_le_pe (periodStart periodEnd : Date) (sub : Subscription) :
    periodEnd.before (effectiveInterval periodStart periodEnd sub).2 = false := by
  cases hE : sub.EndDate with
  | none =>
      rw [eff_snd_of_none periodStart periodEnd sub hE]
      exact before_irrefl periodEnd
  | some e =>
      rcases hz : e.isZero with _ | _
      · rw [eff_snd_of_some periodStart periodEnd sub e hE hz]
        exact MinTime_le_right e periodEnd
      · have : (effectiveInterval periodStart periodEnd sub).2 = periodEnd := by
          simp [effectiveInterval, hE, hz]
        rw [this]
        exact before_irrefl periodEnd

theorem coveredUnion_remove (periodStart periodEnd : Date) (sub : Subscription)
    (h : coveredMonths periodStart periodEnd sub = ∅) :
    ∀ (l1 l2 : List Subscription),
      coveredUnion periodStart periodEnd (l1 ++ sub :: l2)
        = coveredUnion periodStart periodEnd (l1 ++ l2) := by
  intro l1
  induction l1 with
  | nil => intro l2; simp [coveredUnion, h]
  | cons s r ih =>
      intro l2
      simp only [List.cons_append, coveredUnion]
      congr 1
      exact ih l2

theorem costSpec_remove (periodStart periodEnd : Date) (sub : Subscription)
    (h : coveredMonths periodStart periodEnd sub = ∅) :
    ∀ (l1 l2 : List Subscription) (covered : Finset Int),
      costSpec periodStart periodEnd covered (l1 ++ sub :: l2)
        = costSpec periodStart periodEnd covered (l1 ++ l2) := by
  intro l1
  induction l1 with
  | nil =>
      intro l2 covered
      simp [costSpec, h]
  | cons s r ih =>
      intro l2 covered
      simp only [List.cons_append, costSpec]
      congr 1
      exact ih l2 (covered ∪ coveredMonths periodStart periodEnd s)

theorem metrics_unitPrice (subs : List Subscription) (periodStart periodEnd : Date) :
    (CalculateSubscriptionMetrics subs periodStart periodEnd).1 = firstNonzeroPrice subs := by
  simp only [CalculateSubscriptionMetrics]
  rw [foldl_decomp, uFold_eq]
  rfl

theorem metrics_totalCost (subs : List Subscription) (periodStart periodEnd : Date) :
    (CalculateSubscriptionMetrics subs periodStart periodEnd).2.1
      = costSpec periodStart periodEnd ∅ subs := by
  simp only [CalculateSubscriptionMetrics]
  rw [foldl_decomp]
  have h := tmFold_cost periodStart periodEnd subs 0 ∅
  rw [Finset.image_empty] at h
  rw [h, zero_add]

theorem metrics_uniqueMonths (subs : List Subscription) (periodStart periodEnd : Date) :
    (CalculateSubscriptionMetrics subs periodStart periodEnd).2.2
      = (coveredUnion periodStart periodEnd subs).card := by
  simp only [CalculateSubscriptionMetrics]
  rw [foldl_decomp]
  have h := tmFold_months periodStart periodEnd subs 0 ∅
  rw [Finset.empty_union] at h
  show (List.foldl (tmStep periodStart periodEnd) (0, ∅) subs).2.card = _
  rw [h, Finset.card_image_of_injective _ monthKey_injective]

/-- Claim C1, counterexample: with the window January to February 2024, the
first listed subscription (price 50, starting March 2024) has no overlap with
the window and contributes no month, while the second (price 100) does
contribute; yet the returned unitPrice is 50, the price of the first
subscription processed, not 100, the price of the first contributor.  So a
subscription with no overlap can determine unitPrice. -/
theorem C1_counterexample :
    (CalculateSubscriptionMetrics
        [⟨50, mkMonth 2024 3, none⟩, ⟨100, mkMonth 2024 1, none⟩]
        (mkMonth 2024 1) (mkMonth 2024 2)).1 = 50
    ∧ coveredMonths (mkMonth 2024 1) (mkMonth 2024 2) ⟨50, mkMonth 2024 3, none⟩ = ∅
    ∧ coveredMonths (mkMonth 2024 1) (mkMonth 2024 2) ⟨100, mkMonth 2024 1, none⟩ ≠ ∅
    ∧ (50 : Int) ≠ 100 := by
  decide

/-- Claim C1, amended: the unitPrice returned by the summary computation is
the price of the first subscription in input order whose price is nonzero
(0 when there is none), independently of any overlap with the query window. -/
theorem C1_unitPrice_first_nonzero (subs : List Subscription) (periodStart periodEnd : Date) :
    (CalculateSubscriptionMetrics subs periodStart periodEnd).1 = firstNonzeroPrice subs :=
  metrics_unitPrice subs periodStart periodEnd

/-- Claim C2, counterexample: for subscription A (price 100, open-ended from
January 2024) followed by B (price 200, open-ended from June 2024) with window
January through August 2024, the computation does not return totalCost 1100:
all eight months are newly added by A at price 100, so the total is 800. -/
theorem C2_counterexample :
    ¬ ((CalculateSubscriptionMetrics
          [⟨100, mkMonth 2024 1, none⟩, ⟨200, mkMonth 2024 6, none⟩]
          (mkMonth 2024 1) (mkMonth 2024 8)).2.2 = 8
        ∧ (CalculateSubscriptionMetrics
          [⟨100, mkMonth 2024 1, none⟩, ⟨200, mkMonth 2024 6, none⟩]
          (mkMonth 2024 1) (mkMonth 2024 8)).2.1 = 1100) := by
  decide

/-- Claim C2, amended: on that input the summary computation returns
unitPrice 100, totalCost 800, and uniqueMonths 8. -/
theorem C2_scenario_metrics :
    CalculateSubscriptionMetrics
        [⟨100, mkMonth 2024 1, none⟩, ⟨200, mkMonth 2024 6, none⟩]
        (mkMonth 2024 1) (mkMonth 2024 8) = (100, 800, 8) := by
  decide

/-- Claim C3: for every subscription list and query window, the uniqueMonths
value equals the number of distinct calendar months covered by the effective
interval of at least one subscription of the list, so identical month ranges
are counted once. -/
theorem C3_uniqueMonths_deduplicated (subs : List Subscription) (periodStart periodEnd : Date) :
    (CalculateSubscriptionMetrics subs periodStart periodEnd).2.2
      = (coveredUnion periodStart periodEnd subs).card :=
  metrics_uniqueMonths subs periodStart periodEnd

/-- Claim C4: for every subscription list and query window, totalCost is the
sum, in input order, of each subscription's price times the number of months
of its effective interval not already covered by an earlier subscription. -/
theorem C4_totalCost_attribution (subs : List Subscription) (periodStart periodEnd : Date) :
    (CalculateSubscriptionMetrics subs periodStart periodEnd).2.1
      = costSpec periodStart periodEnd ∅ subs :=
  metrics_totalCost subs periodStart periodEnd

/-- Claim C5, counterexample: a subscription whose end date field is present
but holds the zero time value is given effectiveEnd = periodEnd by the code,
not the minimum of its end date and the window end as the claim states for
every present end date. -/
theorem C5_counterexample :
    (⟨10, mkMonth 2024 1, some Date.zeroDate⟩ : Subscription).EndDate = some Date.zeroDate
    ∧ (effectiveInterval (mkMonth 2024 1) (mkMonth 2024 2)
          ⟨10, mkMonth 2024 1, some Date.zeroDate⟩).2
        ≠ MinTime Date.zeroDate (mkMonth 2024 2) :=
  ⟨rfl, by decide⟩

/-- Claim C5, amended: effectiveStart is the later of the subscription start
and the window start; when the end date is absent the effective end is the
window end; and when an end date is present and is not the zero time value,
the effective end is the earlier of that end date and the window end. -/
theorem C5_normalizer_max_min (periodStart periodEnd : Date) (sub : Subscription) :
    ((effectiveInterval periodStart periodEnd sub).1.before sub.StartDate = false
      ∧ (effectiveInterval periodStart periodEnd sub).1.before periodStart = false
      ∧ ((effectiveInterval periodStart periodEnd sub).1 = sub.StartDate
          ∨ (effectiveInterval periodStart periodEnd sub).1 = periodStart))
    ∧ (sub.EndDate = none → (effectiveInterval periodStart periodEnd sub).2 = periodEnd)
    ∧ (∀ e, sub.EndDate = some e → e.isZero = false →
        e.before (effectiveInterval periodStart periodEnd sub).2 = false
          ∧ periodEnd.before (effectiveInterval periodStart periodEnd sub).2 = false
          ∧ ((effectiveInterval periodStart periodEnd sub).2 = e
              ∨ (effectiveInterval periodStart periodEnd sub).2 = periodEnd)) := by
  refine ⟨⟨eff_fst_ge_st _ _ _, eff_fst_ge_ps _ _ _, ?_⟩, ?_, ?_⟩
  · exact MaxTime_cases sub.StartDate periodStart
  · intro hE
    exact eff_snd_of_none _ _ _ hE
  · intro e hE hz
    rw [eff_snd_of_some periodStart periodEnd sub e hE hz]
    exact ⟨MinTime_le_left e periodEnd, MinTime_le_right e periodEnd, MinTime_cases e periodEnd⟩

/-- Claim C5, witness: a concrete subscription with a genuine end date, whose
effective end is one of its end date and the window end. -/
theorem C5_normalizer_max_min_witness :
    (effectiveInterval (mkMonth 2024 1) (mkMonth 2024 8)
        ⟨10, mkMonth 2024 1, some (mkMonth 2024 5)⟩).2 = mkMonth 2024 5
      ∨ (effectiveInterval (mkMonth 2024 1) (mkMonth 2024 8)
        ⟨10, mkMonth 2024 1, some (mkMonth 2024 5)⟩).2 = mkMonth 2024 8 :=
  ((C5_normalizer_max_min (mkMonth 2024 1) (mkMonth 2024 8)
      ⟨10, mkMonth 2024 1, some (mkMonth 2024 5)⟩).2.2 (mkMonth 2024 5) rfl (by decide)).2.2

/-- Claim C6: a subscription is skipped exactly when its effective start is
chronologically strictly after its effective end; in particular when the
effective start equals the effective end plus one day the interval is treated
as no overlap; and a skipped subscription leaves the running cost and month
set unchanged. -/
theorem C6_no_overlap_guard (periodStart periodEnd : Date) (sub : Subscription)
    (st : Int × Int × Finset (Int × Int)) :
    (noOverlap (effectiveInterval periodStart periodEnd sub).1
        (effectiveInterval periodStart periodEnd sub).2 = true
      ↔ (effectiveInterval periodStart periodEnd sub).2.before
          (effectiveInterval periodStart periodEnd sub).1 = true)
    ∧ ((effectiveInterval periodStart periodEnd sub).1
          = (effectiveInterval periodStart periodEnd sub).2.addOneDay
        → noOverlap (effectiveInterval periodStart periodEnd sub).1
            (effectiveInterval periodStart periodEnd sub).2 = true)
    ∧ (noOverlap (effectiveInterval periodStart periodEnd sub).1
          (effectiveInterval periodStart periodEnd sub).2 = true
        → (calcStep periodStart periodEnd st sub).2 = st.2) := by
  refine ⟨noOverlap_iff _ _, ?_, ?_⟩
  · intro he
    unfold noOverlap
    rw [he]
    simp
  · intro h
    simp only [calcStep]
    rw [if_pos h]

/-- Claim C6, witness: a concrete adjacent pair, where the effective start is
exactly one day after the effective end, is treated as no overlap. -/
theorem C6_no_overlap_guard_witness :
    noOverlap
      (effectiveInterval (mkMonth 2024 1) (mkMonth 2024 8)
        ⟨10, ⟨24289, 2, 0⟩, some ⟨24289, 1, 0⟩⟩).1
      (effectiveInterval (mkMonth 2024 1) (mkMonth 2024 8)
        ⟨10, ⟨24289, 2, 0⟩, some ⟨24289, 1, 0⟩⟩).2 = true :=
  (C6_no_overlap_guard (mkMonth 2024 1) (mkMonth 2024 8)
      ⟨10, ⟨24289, 2, 0⟩, some ⟨24289, 1, 0⟩⟩ (0, 0, ∅)).2.1 (by decide)

/-- Claim C7: a list entry whose active interval lies entirely before the
window start (its end date is present, nonzero and before the window start)
or entirely after the window end (its start date is after the window end)
contributes nothing: removing it changes neither totalCost nor uniqueMonths. -/
theorem C7_outside_window_no_contribution (periodStart periodEnd : Date)
    (l1 l2 : List Subscription) (sub : Subscription)
    (h : (∃ e, sub.EndDate = some e ∧ e.isZero = false ∧ e.before periodStart = true)
      ∨ periodEnd.before sub.StartDate = true) :
    (CalculateSubscriptionMetrics (l1 ++ sub :: l2) periodStart periodEnd).2.1
        = (CalculateSubscriptionMetrics (l1 ++ l2) periodStart periodEnd).2.1
      ∧ (CalculateSubscriptionMetrics (l1 ++ sub :: l2) periodStart periodEnd).2.2
        = (CalculateSubscriptionMetrics (l1 ++ l2) periodStart periodEnd).2.2 := by
  have hno : noOverlap (effectiveInterval periodStart periodEnd sub).1
      (effectiveInterval periodStart periodEnd sub).2 = true := by
    apply (noOverlap_iff _ _).mpr
    rcases h with ⟨e, hE, hz, hlt⟩ | hlt
    · rw [eff_snd_of_some periodStart periodEnd sub e hE hz]
      exact before_chain (MinTime_le_left e periodEnd) hlt
        (eff_fst_ge_ps periodStart periodEnd sub)
    · exact before_chain (eff_snd_le_pe periodStart periodEnd sub) hlt
        (eff_fst_ge_st periodStart periodEnd sub)
  have hcov := coveredMonths_of_noOverlap periodStart periodEnd sub hno
  constructor
  · rw [metrics_totalCost, metrics_totalCost,
      costSpec_remove periodStart periodEnd sub hcov l1 l2 ∅]
  · rw [metrics_uniqueMonths, metrics_uniqueMonths,
      coveredUnion_remove periodStart periodEnd sub hcov l1 l2]

/-- Claim C7, witness: removing a concrete subscription lying entirely after
the query window leaves totalCost and uniqueMonths unchanged. -/
theorem C7_outside_window_no_contribution_witness :
    (CalculateSubscriptionMetrics
        ([⟨100, mkMonth 2024 1, none⟩] ++ ⟨50, mkMonth 2024 3, none⟩ :: [])
        (mkMonth 2024 1) (mkMonth 2024 2)).2.1
      = (CalculateSubscriptionMetrics ([⟨100, mkMonth 2024 1, none⟩] ++ [])
        (mkMonth 2024 1) (mkMonth 2024 2)).2.1
    ∧ (CalculateSubscriptionMetrics
        ([⟨100, mkMonth 2024 1, none⟩] ++ ⟨50, mkMonth 2024 3, none⟩ :: [])
        (mkMonth 2024 1) (mkMonth 2024 2)).2.2
      = (CalculateSubscriptionMetrics ([⟨100, mkMonth 2024 1, none⟩] ++ [])
        (mkMonth 2024 1) (mkMonth 2024 2)).2.2 :=
  C7_outside_window_no_contribution (mkMonth 2024 1) (mkMonth 2024 2)
    [⟨100, mkMonth 2024 1, none⟩] [] ⟨50, mkMonth 2024 3, none⟩ (Or.inr (by decide))

/-- Claim C8: for two subscriptions whose effective intervals share at least
one calendar month and whose prices differ, swapping their order changes
totalCost but leaves uniqueMonths unchanged. -/
theorem C8_order_sensitivity (periodStart periodEnd : Date) (a b : Subscription)
    (hshare : (coveredMonths periodStart periodEnd a
      ∩ coveredMonths periodStart periodEnd b).Nonempty)
    (hne : a.Price ≠ b.Price) :
    (CalculateSubscriptionMetrics [a, b] periodStart periodEnd).2.1
        ≠ (CalculateSubscriptionMetrics [b, a] periodStart periodEnd).2.1
      ∧ (CalculateSubscriptionMetrics [a, b] periodStart periodEnd).2.2
        = (CalculateSubscriptionMetrics [b, a] periodStart periodEnd).2.2 := by
  constructor
  · rw [metrics_totalCost, metrics_totalCost]
    simp only [costSpec, Finset.sdiff_empty, Finset.empty_union, add_zero]
    intro heq
    have h1 : (coveredMonths periodStart periodEnd a \ coveredMonths periodStart periodEnd b).card
        + (coveredMonths periodStart periodEnd a ∩ coveredMonths periodStart periodEnd b).card
        = (coveredMonths periodStart periodEnd a).card :=
      Finset.card_sdiff_add_card_inter _ _
    have h2 : (coveredMonths periodStart periodEnd b \ coveredMonths periodStart periodEnd a).card
        + (coveredMonths periodStart periodEnd b ∩ coveredMonths periodStart periodEnd a).card
        = (coveredMonths periodStart periodEnd b).card :=
      Finset.card_sdiff_add_card_inter _ _
    have hk : 0 < (coveredMonths periodStart periodEnd a
        ∩ coveredMonths periodStart periodEnd b).card :=
      Finset.card_pos.mpr hshare
    rw [Finset.inter_comm] at h2
    have e1 : ((coveredMonths periodStart periodEnd a).card : Int)
        = ((coveredMonths periodStart periodEnd a \ coveredMonths periodStart periodEnd b).card : Int)
        + ((coveredMonths periodStart periodEnd a ∩ coveredMonths periodStart periodEnd b).card : Int) := by
      exact_mod_cast h1.symm
    have e2 : ((coveredMonths periodStart periodEnd b).card : Int)
        = ((coveredMonths periodStart periodEnd b \ coveredMonths periodStart periodEnd a).card : Int)
        + ((coveredMonths periodStart periodEnd a ∩ coveredMonths periodStart periodEnd b).card : Int) := by
      exact_mod_cast h2.symm
    rw [e1, e2] at heq
    have hzero : (a.Price - b.Price)
        * (((coveredMonths periodStart periodEnd a
            ∩ coveredMonths periodStart periodEnd b).card : Nat) : Int) = 0 := by
      linear_combination heq
    rcases mul_eq_zero.mp hzero with hz | hz
    · exact hne (by omega)
    · have : (coveredMonths periodStart periodEnd a
          ∩ coveredMonths periodStart periodEnd b).card = 0 := by
        exact_mod_cast hz
      omega
  · rw [metrics_uniqueMonths, metrics_uniqueMonths]
    simp only [coveredUnion, Finset.union_empty]
    rw [Finset.union_comm]

/-- Claim C8, witness: two concrete overlapping subscriptions with different
prices, for which swapping the order changes totalCost but not uniqueMonths. -/
theorem C8_order_sensitivity_witness :
    (CalculateSubscriptionMetrics
        [⟨100, mkMonth 2024 1, none⟩, ⟨200, mkMonth 2024 6, none⟩]
        (mkMonth 2024 1) (mkMonth 2024 8)).2.1
      ≠ (CalculateSubscriptionMetrics
        [⟨200, mkMonth 2024 6, none⟩, ⟨100, mkMonth 2024 1, none⟩]
        (mkMonth 2024 1) (mkMonth 2024 8)).2.1
    ∧ (CalculateSubscriptionMetrics
        [⟨100, mkMonth 2024 1, none⟩, ⟨200, mkMonth 2024 6, none⟩]
        (mkMonth 2024 1) (mkMonth 2024 8)).2.2
      = (CalculateSubscriptionMetrics
        [⟨200, mkMonth 2024 6, none⟩, ⟨100, mkMonth 2024 1, none⟩]
        (mkMonth 2024 1) (mkMonth 2024 8)).2.2 :=
  C8_order_sensitivity (mkMonth 2024 1) (mkMonth 2024 8)
    ⟨100, mkMonth 2024 1, none⟩ ⟨200, mkMonth 2024 6, none⟩
    ⟨24293, by decide⟩ (by decide)

/-- Claim C9: the summary computation is deterministic and stateless; equal
inputs produce equal (unitPrice, totalCost, uniqueMonths) results, the month
set being created afresh inside each invocation. -/
theorem C9_deterministic (subs1 subs2 : List Subscription) (ps1 ps2 pe1 pe2 : Date)
    (hs : subs1 = subs2) (hps : ps1 = ps2) (hpe : pe1 = pe2) :
    CalculateSubscriptionMetrics subs1 ps1 pe1 = CalculateSubscriptionMetrics subs2 ps2 pe2 := by
  rw [hs, hps, hpe]

/-- Claim C9, witness: two invocations with the same concrete input agree. -/
theorem C9_deterministic_witness :
    CalculateSubscriptionMetrics [⟨100, mkMonth 2024 1, none⟩]
        (mkMonth 2024 1) (mkMonth 2024 8)
      = CalculateSubscriptionMetrics [⟨100, mkMonth 2024 1, none⟩]
        (mkMonth 2024 1) (mkMonth 2024 8) :=
  C9_deterministic _ _ _ _ _ _ rfl rfl rfl

/-- Claim C10: a subscription whose end date field is present but holds the
zero time value is processed exactly like one with no end date at all, and
its effective end is the query window end. -/
theorem C10_zero_end_date_open_ended (periodStart periodEnd : Date) (p : Int) (sd : Date)
    (st : Int × Int × Finset (Int × Int)) :
    calcStep periodStart periodEnd st ⟨p, sd, some Date.zeroDate⟩
        = calcStep periodStart periodEnd st ⟨p, sd, none⟩
      ∧ (effectiveInterval periodStart periodEnd ⟨p, sd, some Date.zeroDate⟩).2 = periodEnd :=
  ⟨rfl, rfl⟩
